/-
Verification of `src/utils/excel_export.py` (RateMySite spreadsheet export).

The two export functions are shallowly embedded as pure Lean functions:
`create_excel_report` becomes `styledSheet` (a list of written cells with
their values and styles), and `create_detailed_excel_report` becomes the
per-sheet data builders (`summaryData`, `detailedDataColumns`, `scoresData`)
plus `detailedSheetNames` (which sheets are written).  Python string
operations used by the source (`in`, `startswith`, `split`, `replace`,
`isdigit`, `int`) are modelled over `List Char` by structurally recursive
functions so that everything evaluates inside the kernel.
-/
import Mathlib

set_option autoImplicit false

namespace RateMySite

/-! ### Python string primitives (over `List Char`) -/

/-- Python `sub in s` (substring containment). -/
def hasSub (sub : List Char) : List Char → Bool
  | [] => sub.isEmpty
  | c :: rest => sub.isPrefixOf (c :: rest) || hasSub sub rest

/-- Characters of `s` strictly before the first occurrence of `sub`
(all of `s` if `sub` does not occur).  For non-empty `sub` this is
Python `s.split(sub)[0]`. -/
def takeUntilSub (sub : List Char) : List Char → List Char
  | [] => []
  | c :: rest =>
    if sub.isPrefixOf (c :: rest) then [] else c :: takeUntilSub sub rest

/-- Suffix of `s` after the first occurrence of `sub` (empty if none). -/
def dropAfterSub (sub : List Char) : List Char → List Char
  | [] => []
  | c :: rest =>
    if sub.isPrefixOf (c :: rest) then (c :: rest).drop sub.length
    else dropAfterSub sub rest

/-- Fuel-driven body of Python `s.replace(old, new)`: replaces every
leftmost non-overlapping occurrence, scanning left to right.  The fuel
(initially `s.length`) only guarantees structural termination; for
non-empty `old` it is never exhausted before the string is. -/
def pyReplaceFuel (old new : List Char) : Nat → List Char → List Char
  | _, [] => []
  | 0, s => s
  | fuel + 1, c :: rest =>
    if old.isPrefixOf (c :: rest) then
      new ++ pyReplaceFuel old new fuel ((c :: rest).drop old.length)
    else
      c :: pyReplaceFuel old new fuel rest

/-- Python `s.replace(old, new)` for non-empty `old`. -/
def pyReplace (s old new : List Char) : List Char :=
  pyReplaceFuel old new s.length s

/-- Python `str.isdigit` restricted to ASCII: true iff the string is
non-empty and all characters are decimal digits.  (The records in scope
hold ASCII score strings, so the ASCII restriction is faithful.) -/
def strIsDigit (s : String) : Bool :=
  !s.toList.isEmpty && s.toList.all Char.isDigit

/-- Python `int(s)` on a purely-digit string: its decimal value. -/
def pyInt (s : String) : Nat :=
  s.toList.foldl (fun n c => 10 * n + (c.toNat - 48)) 0

/-- Python `'Score' in key`, the source's score-field test. -/
def containsScore (key : String) : Bool :=
  hasSub "Score".toList key.toList

/-! ### Records -/

/-- One analysis result: a mapping field name → string value
(`Dict[str, Any]` in the source; the exported fields are strings). -/
abbrev Record := List (String × String)

/-- Python `result.get(key)`: the value of the first binding of `key`,
if any (dict keys are unique, so first = only). -/
def getField (r : Record) (key : String) : Option String :=
  (r.find? (fun p => p.1 == key)).map (·.2)

/-! ### Styled single-sheet report (`create_excel_report`)

A written cell records its coordinate (column letter and row number)
together with the value string and the style the source assigns.
Border and alignment are the same constants on every table cell and are
referenced by no claim, so they are not modelled. -/

/-- The subset of `openpyxl.styles.Font` the source sets. -/
structure FontS where
  bold : Bool := false
  color : Option String := none
  underline : Bool := false
  size : Option Nat := none
deriving DecidableEq

def headerFont : FontS := { bold := true, color := some "FFFFFF", size := some 12 }

def subheaderFont : FontS := { bold := true, size := some 11 }

def scoreFont : FontS := { bold := true }

def linkFont : FontS := { color := some "0000FF", underline := true }

def titleFont : FontS := { bold := true, size := some 16 }

def summaryTitleFont : FontS := { bold := true, size := some 14 }

def headerFillColor : String := "366092"

def subheaderFillColor : String := "D9E2F3"

/-- Light green fill (`C6EFCE`) used for scores `>= 80`. -/
def greenFill : String := "C6EFCE"

/-- Light yellow fill (`FFEB9C`) used for scores `60..79`. -/
def yellowFill : String := "FFEB9C"

/-- Light red fill (`FFC7CE`) used for scores `< 60`. -/
def redFill : String := "FFC7CE"

/-- One cell written by `create_excel_report`: coordinate, value, and the
font/fill/hyperlink the source sets (none = left at default). -/
structure CellW where
  colL : Char
  row : Nat
  value : String
  font : Option FontS := none
  fill : Option String := none
  link : Option String := none
deriving DecidableEq

/-- The source's `chr(ord('A') + col_idx - 1)` for the 1-based column
index `colIdx` (so index 1 ↦ 'A', 2 ↦ 'B', …, 27 ↦ '[' past 'Z'). -/
def colLetterOf (colIdx : Nat) : Char := Char.ofNat (64 + colIdx)

/-- Lines 75-83 of the source: if the url starts with `http://` or
`https://`, take `url.split('//')[1].split('/')[0]` and delete every
occurrence of `"www."` from it (`str.replace`); otherwise the url is
used unchanged.  `split('//')[1].split('/')[0]` equals the text after
the first `//` up to the next `/`: the second `//`-chunk ends at the
next `//`, which itself begins with `/`, so cutting at the first `/`
gives the same characters. -/
def extractDomain (url : String) : String :=
  if "http://".toList.isPrefixOf url.toList
      || "https://".toList.isPrefixOf url.toList then
    ⟨pyReplace (takeUntilSub ['/'] (dropAfterSub ['/', '/'] url.toList))
      "www.".toList []⟩
  else url

/-- Header label of one record's column:
`extractDomain(result.get('URL', 'Unknown'))`. -/
def headerLabel (r : Record) : String :=
  extractDomain ((getField r "URL").getD "Unknown")

/-- The header cell of one record's column (row 5). -/
def headerCell (colIdx : Nat) (r : Record) : CellW :=
  { colL := colLetterOf colIdx, row := 5, value := headerLabel r
    font := some headerFont, fill := some headerFillColor }

/-- One data cell of the styled table (lines 103-129 of the source):
the cell value is `str(result.get(row_key, '-'))` (`None` also becomes
`'-'`); a score key with a digit value gets the bold score font and a
tier fill; otherwise the `URL` key with a present value becomes a
hyperlink; otherwise the cell is plain. -/
def dataCell (rowNum colIdx : Nat) (rowKey : String) (r : Record) : CellW :=
  let value := (getField r rowKey).getD "-"
  let base : CellW := { colL := colLetterOf colIdx, row := rowNum, value := value }
  if containsScore rowKey && (value != "-") && strIsDigit value then
    { base with
      font := some scoreFont
      fill :=
        if 80 ≤ pyInt value then some greenFill
        else if 60 ≤ pyInt value then some yellowFill
        else if pyInt value < 60 then some redFill
        else none }
  else if rowKey == "URL" && (value != "-") then
    { base with link := some value, font := some linkFont }
  else base

/-- Lines 143-147: the list of valid scores of field `f` across the
records, in order — `int(value)` for every record whose value is not
`'-'` and is purely digits (missing fields default to `'-'`). -/
def collectScores (f : String) (rs : List Record) : List Nat :=
  rs.filterMap (fun r =>
    let v := (getField r f).getD "-"
    if (v != "-") && strIsDigit v then some (pyInt v) else none)

/-- Lines 140-153: one summary entry `(field, sum, count)` per
score field of the table layout whose collected score list is
non-empty (in layout order). -/
def summaryLines (tableRows : List (String × String)) (rs : List Record) :
    List (String × Nat × Nat) :=
  ((tableRows.map Prod.fst).filter containsScore).filterMap (fun f =>
    let scores := collectScores f rs
    if scores.isEmpty then none
    else some (f, scores.sum, scores.length))

/-- Map with a running counter, mirroring Python
`enumerate(xs, start)`. -/
def mapIdx2 {α β : Type} (f : Nat → α → β) : Nat → List α → List β
  | _, [] => []
  | start, a :: as => f start a :: mapIdx2 f (start + 1) as

/-- The cells of one table row: the display label in column A
(sub-header style) followed by one `dataCell` per record, columns B…. -/
def dataRowCells (rs : List Record) (rowNum : Nat) (kd : String × String) :
    List CellW :=
  { colL := 'A', row := rowNum, value := kd.2
    font := some subheaderFont, fill := some subheaderFillColor } ::
    mapIdx2 (fun i r => dataCell rowNum i kd.1 r) 2 rs

/-- The summary value cells: for the `j`-th emitted line (rows advance
only when a line is emitted), column A holds `"Average {field}:"` and
column B the formatted mean.  `fmt sum count` stands for the Python
float formatting `f"{sum / count:.1f}"`, kept as a parameter; the pair
it is applied to is exactly the source's `(sum(scores), len(scores))`. -/
def summaryCells (startR : Nat) (lines : List (String × Nat × Nat))
    (fmt : Nat → Nat → String) : List CellW :=
  (mapIdx2 (fun rowN e =>
      [ { colL := 'A', row := rowN, value := "Average " ++ e.1 ++ ":" },
        { colL := 'B', row := rowN, value := fmt e.2.1 e.2.2 } ])
    startR lines).flatten

/-- The full list of cells `create_excel_report` writes, in write
order: title block (rows 1-3); for empty input only the placeholder at
A5; otherwise the header row at row 5, the data rows from row 6, and
the summary block two rows below the table. -/
def styledSheet (ts : String) (results : List Record)
    (tableRows : List (String × String)) (fmt : Nat → Nat → String) :
    List CellW :=
  let title : List CellW :=
    [ { colL := 'A', row := 1, value := "RateMySite Analysis Report"
        font := some titleFont },
      { colL := 'A', row := 2, value := "Generated on: " ++ ts },
      { colL := 'A', row := 3
        value := "Total sites analyzed: " ++ toString results.length } ]
  if results.isEmpty then
    title ++ [{ colL := 'A', row := 5, value := "No results to display" }]
  else
    let headerRow : List CellW :=
      { colL := 'A', row := 5, value := "Category"
        font := some headerFont, fill := some headerFillColor } ::
        mapIdx2 (fun i r => headerCell i r) 2 results
    let dataRows : List CellW :=
      (mapIdx2 (fun rowNum kd => dataRowCells results rowNum kd) 6 tableRows).flatten
    let sumStart := 6 + tableRows.length + 2
    let summary : List CellW :=
      { colL := 'A', row := sumStart, value := "Summary Statistics"
        font := some summaryTitleFont } ::
        summaryCells (sumStart + 1) (summaryLines tableRows results) fmt
    title ++ headerRow ++ dataRows ++ summary

/-! ### Column auto-sizing (lines 156-169)

The source iterates `ws.columns`: for each column letter of the used
range it takes, over rows 1 .. max written row, `len(str(cell.value))`
— an untouched cell in the range has value `None`, and `str(None)` is
`"None"` (length 4) — and sets the width to
`min(max(max_length + 2, 10), 50)`. -/

/-- The value visible at a coordinate: the last write wins (the sheet
list is in write order). -/
def lookupCell (sheet : List CellW) (cl : Char) (r : Nat) : Option String :=
  (sheet.reverse.find? (fun c => c.colL == cl && c.row == r)).map (·.value)

/-- `str(cell.value)` of an openpyxl cell: the string for a written
cell, `"None"` for an untouched one. -/
def strOfCell : Option String → String
  | some v => v
  | none => "None"

/-- The largest written row number (the used range is rows 1 .. this). -/
def sheetMaxRow (sheet : List CellW) : Nat :=
  (sheet.map (·.row)).foldr max 0

/-- The source's `max_length` for one column: the maximum of
`len(str(cell.value))` over the column's cells in the used range. -/
def colAutoMax (sheet : List CellW) (cl : Char) : Nat :=
  ((List.range (sheetMaxRow sheet)).map
    (fun j => (strOfCell (lookupCell sheet cl (j + 1))).length)).foldr max 0

/-- The width the source assigns to a column:
`min(max(max_length + 2, 10), 50)`. -/
def colWidth (sheet : List CellW) (cl : Char) : Nat :=
  min (max (colAutoMax sheet cl + 2) 10) 50

/-- The length of the longest value actually written in a column
(0 where nothing is written) — the quantity the specification's
`max_text_length_in_column` refers to. -/
def colWrittenMax (sheet : List CellW) (cl : Char) : Nat :=
  ((List.range (sheetMaxRow sheet)).map
    (fun j => ((lookupCell sheet cl (j + 1)).map String.length).getD 0)).foldr max 0

/-! ### Detailed multi-sheet report (`create_detailed_excel_report`) -/

/-- One row of the `Summary` sheet (lines 188-197): the eight fixed
fields, missing ones defaulting to the empty string. -/
def summaryRow (r : Record) : List (String × String) :=
  [ ("URL", (getField r "URL").getD ""),
    ("Company", (getField r "Company").getD ""),
    ("Overall Score", (getField r "Overall Score").getD ""),
    ("Consumer Score", (getField r "Consumer Score").getD ""),
    ("Developer Score", (getField r "Developer Score").getD ""),
    ("Investor Score", (getField r "Investor Score").getD ""),
    ("Trust Score", (getField r "Trust Score").getD ""),
    ("UX Score", (getField r "UX Score").getD "") ]

/-- The `Summary` sheet data: one row per record. -/
def summaryData (rs : List Record) : List (List (String × String)) :=
  rs.map summaryRow

/-- `pd.DataFrame(results).columns`: the union of the records' keys in
first-seen order (modelling pandas' column inference for a list of
mappings). -/
def dfColumns (rs : List Record) : List String :=
  rs.foldl (fun acc r =>
    (r.map Prod.fst).foldl (fun a k => if k ∈ a then a else a ++ [k]) acc) []

/-- The columns of the `Detailed Data` sheet (lines 205-210): the
inferred columns with `_raw` dropped when present
(`detailed_df.drop('_raw', axis=1)`). -/
def detailedDataColumns (rs : List Record) : List String :=
  (dfColumns rs).filter (fun k => k != "_raw")

/-- The nine fixed score columns of the `Scores Comparison` sheet
(lines 214-216), in source order. -/
def scoreColumns : List String :=
  [ "Overall Score", "Consumer Score", "Developer Score",
    "Investor Score", "Clarity Score", "Visual Design Score",
    "UX Score", "Trust Score", "Value Prop Score" ]

/-- One score cell of the `Scores Comparison` sheet (lines 221-226):
`int(value) if value and str(value).isdigit() else None`, with the
value defaulting to `''`.  `none` is an empty cell (pandas `None`). -/
def scoresCell (r : Record) (col : String) : Option Nat :=
  let v := (getField r col).getD ""
  if (v != "") && strIsDigit v then some (pyInt v) else none

/-- One row of the `Scores Comparison` sheet: the URL (defaulting to
`''`) and the nine score cells. -/
def scoresRow (r : Record) : String × List (Option Nat) :=
  ((getField r "URL").getD "", scoreColumns.map (scoresCell r))

/-- The `Scores Comparison` sheet data: one row per record. -/
def scoresData (rs : List Record) : List (String × List (Option Nat)) :=
  rs.map scoresRow

/-- The sheets `create_detailed_excel_report` writes, in order: each
`to_excel` call is guarded by non-emptiness of its data (Python
truthiness of the row list / the records list). -/
def detailedSheetNames (rs : List Record) : List String :=
  (if !(summaryData rs).isEmpty then ["Summary"] else []) ++
  (if !rs.isEmpty then ["Detailed Data"] else []) ++
  (if !(scoresData rs).isEmpty then ["Scores Comparison"] else [])

/-! ### The header label as claim C2 words it

For the refutation of C2 we also state the label function the claim
describes — scheme stripped, only a *leading* `www.` removed from the
host — and compare it against the source's `extractDomain`. -/

/-- The header label as the specification states it: strip a leading
`http://`/`https://`, remove a leading `www.` from the host; any other
value verbatim. -/
def specLabelLeadingWWW (url : String) : String :=
  if "http://".toList.isPrefixOf url.toList
      || "https://".toList.isPrefixOf url.toList then
    let host := takeUntilSub ['/'] (dropAfterSub ['/', '/'] url.toList)
    ⟨if "www.".toList.isPrefixOf host then host.drop 4 else host⟩
  else url

/-- The header label with the `www.` clause amended to what the source
does: *every* occurrence of `www.` is deleted (leftmost,
non-overlapping), not only a leading one. -/
def specLabelAllWWW (url : String) : String :=
  if "http://".toList.isPrefixOf url.toList
      || "https://".toList.isPrefixOf url.toList then
    let host := takeUntilSub ['/'] (dropAfterSub ['/', '/'] url.toList)
    ⟨pyReplace host "www.".toList []⟩
  else url

/-! ### Helper lemmas -/

lemma strIsDigit_ne_empty {v : String} (h : strIsDigit v = true) : v ≠ "" := by
  intro e; subst e; exact absurd h (by decide)

lemma strIsDigit_ne_dash {v : String} (h : strIsDigit v = true) : v ≠ "-" := by
  intro e; subst e; exact absurd h (by decide)

lemma dataCell_value (rowNum colIdx : Nat) (k : String) (r : Record) :
    (dataCell rowNum colIdx k r).value = (getField r k).getD "-" := by
  unfold dataCell
  dsimp only
  split
  · rfl
  · split <;> rfl

/-! ### Claim C7 -/

/-- C7: called with an empty records list, `create_detailed_excel_report`
writes zero sheets — none of `Summary`, `Detailed Data`,
`Scores Comparison` is present. -/
theorem detailed_report_empty_zero_sheets :
    detailedSheetNames [] = [] ∧
    "Summary" ∉ detailedSheetNames [] ∧
    "Detailed Data" ∉ detailedSheetNames [] ∧
    "Scores Comparison" ∉ detailedSheetNames [] := by
  refine ⟨rfl, ?_, ?_, ?_⟩ <;> simp [detailedSheetNames, summaryData, scoresData]

/-! ### Claim C6 -/

/-- C6 counterexample: with an empty records list the written file does
not contain *only* the placeholder message — it also contains the title
line, the generation timestamp and the record-count line (four written
cells in all, of which only the last is the placeholder). -/
theorem empty_report_not_only_placeholder :
    (styledSheet "ts" [] [] (fun _ _ => "")).map (fun c => c.value) =
      ["RateMySite Analysis Report", "Generated on: ts",
        "Total sites analyzed: 0", "No results to display"] ∧
    (styledSheet "ts" [] [] (fun _ _ => "")).all
      (fun c => c.value == "No results to display") = false := by
  constructor
  · rfl
  · rfl

/-- C6 amended: with an empty records list, `create_excel_report` writes
the title block (title, timestamp, record count 0) plus the placeholder
"No results to display" at the table position, and returns — no header
row, no data rows, no summary block. -/
theorem empty_report_placeholder_layout (ts : String)
    (tr : List (String × String)) (fmt : Nat → Nat → String) :
    styledSheet ts [] tr fmt =
      [ { colL := 'A', row := 1, value := "RateMySite Analysis Report"
          font := some titleFont },
        { colL := 'A', row := 2, value := "Generated on: " ++ ts },
        { colL := 'A', row := 3, value := "Total sites analyzed: 0" },
        { colL := 'A', row := 5, value := "No results to display" } ] := by
  rfl

/-! ### Claim C8 -/

/-- C8 counterexample: a present-but-empty value is written as the empty
string, not as the placeholder `-` the claim requires for "missing or
empty (including the empty string)" values. -/
theorem data_cell_empty_string_not_dash :
    (dataCell 6 2 "Company" [("Company", "")]).value = "" ∧
    ("" : String) ≠ "-" := by
  constructor
  · rfl
  · decide

/-- C8 amended: every data cell of the styled table holds the record's
value for the row key verbatim, and holds the placeholder `-` exactly
when the field is missing (or `None`); a present empty string is
written as an empty string, not as `-`. -/
theorem data_cell_value_or_dash (rowNum colIdx : Nat) (k : String) (r : Record) :
    (dataCell rowNum colIdx k r).value = (getField r k).getD "-" ∧
    (getField r k = none → (dataCell rowNum colIdx k r).value = "-") ∧
    (∀ v, getField r k = some v → (dataCell rowNum colIdx k r).value = v) := by
  refine ⟨dataCell_value .., ?_, ?_⟩
  · intro h; rw [dataCell_value, h]; rfl
  · intro v h; rw [dataCell_value, h]; rfl

/-- C8 amended, witness: on a record holding `URL ↦ a.com` and an empty
`Company`, the `URL` cell holds `a.com`, a missing key gives `-`, and
the empty `Company` value stays empty. -/
theorem data_cell_value_or_dash_witness :
    (dataCell 6 2 "URL" [("URL", "a.com"), ("Company", "")]).value = "a.com" ∧
    (dataCell 7 2 "Overall Score" [("URL", "a.com"), ("Company", "")]).value = "-" ∧
    (dataCell 8 2 "Company" [("URL", "a.com"), ("Company", "")]).value = "" := by
  refine ⟨?_, ?_, ?_⟩
  · exact (data_cell_value_or_dash 6 2 "URL" [("URL", "a.com"), ("Company", "")]).2.2
      "a.com" (by decide)
  · exact (data_cell_value_or_dash 7 2 "Overall Score"
      [("URL", "a.com"), ("Company", "")]).2.1 (by decide)
  · exact (data_cell_value_or_dash 8 2 "Company"
      [("URL", "a.com"), ("Company", "")]).2.2 "" (by decide)

/-! ### Claim C2 -/

/-- C2 counterexample: for the URL `https://en.www.example.com/x` the
claim's label (scheme stripped, only a *leading* `www.` removed) is
`en.www.example.com`, but the source labels the column
`en.example.com` — `str.replace` deletes the interior `www.` too. -/
theorem header_label_leading_www_refuted :
    headerLabel [("URL", "https://en.www.example.com/x")] = "en.example.com" ∧
    specLabelLeadingWWW "https://en.www.example.com/x" = "en.www.example.com" ∧
    ("en.example.com" : String) ≠ "en.www.example.com" := by
  refine ⟨rfl, rfl, by decide⟩

/-- C2 amended: the header label strips a leading `http://`/`https://`
scheme and removes *every* occurrence of `www.` from the host (leftmost,
non-overlapping); any other value is used verbatim, and an absent URL
field yields the default label `Unknown`.  The stated examples hold:
`https://www.Example.com/path ↦ Example.com` and
`not-a-url ↦ not-a-url`. -/
theorem header_label_strips_scheme_removes_www (r : Record) :
    headerLabel r = specLabelAllWWW ((getField r "URL").getD "Unknown") ∧
    (getField r "URL" = none → headerLabel r = "Unknown") ∧
    headerLabel [("URL", "https://www.Example.com/path")] = "Example.com" ∧
    headerLabel [("URL", "not-a-url")] = "not-a-url" := by
  refine ⟨rfl, ?_, rfl, rfl⟩
  intro h; unfold headerLabel; rw [h]; rfl

/-- C2 amended, witness: a record without a URL field is labeled
`Unknown`. -/
theorem header_label_strips_scheme_removes_www_witness :
    headerLabel [("Company", "X")] = "Unknown" :=
  (header_label_strips_scheme_removes_www [("Company", "X")]).2.1 (by decide)

/-! ### Claim C4 -/

/-- C4: in the `Scores Comparison` sheet, each of the nine fixed score
cells holds the integer value when the source value is a non-empty
purely-digit string and is empty (`none` — never `-`, never `0`)
otherwise; in particular `N/A` and the empty string give empty cells,
and a missing field does too. -/
theorem scores_comparison_cell_numeric_or_empty (rs : List Record)
    (r : Record) (col : String) (hr : r ∈ rs) (_hcol : col ∈ scoreColumns) :
    scoresRow r ∈ scoresData rs ∧
    (scoresRow r).2 = scoreColumns.map (scoresCell r) ∧
    (∀ v, getField r col = some v →
      scoresCell r col = if strIsDigit v then some (pyInt v) else none) ∧
    (getField r col = none → scoresCell r col = none) := by
  refine ⟨List.mem_map_of_mem _ hr, rfl, ?_, ?_⟩
  · intro v h
    unfold scoresCell
    rw [h]
    cases hd : strIsDigit v with
    | true =>
      have hne : (v != "") = true := bne_iff_ne.mpr (strIsDigit_ne_empty hd)
      simp [hne, hd]
    | false => simp [hd]
  · intro h
    unfold scoresCell
    rw [h]
    rfl

/-- C4 witness: on a record with `Overall Score ↦ N/A` and an empty
`UX Score`, both cells and the missing `Consumer Score` cell are empty,
while `85` for `Trust Score` yields the integer 85. -/
theorem scores_comparison_cell_numeric_or_empty_witness :
    scoresCell [("Overall Score", "N/A"), ("UX Score", ""), ("Trust Score", "85")]
      "Overall Score" = none ∧
    scoresCell [("Overall Score", "N/A"), ("UX Score", ""), ("Trust Score", "85")]
      "UX Score" = none ∧
    scoresCell [("Overall Score", "N/A"), ("UX Score", ""), ("Trust Score", "85")]
      "Consumer Score" = none ∧
    scoresCell [("Overall Score", "N/A"), ("UX Score", ""), ("Trust Score", "85")]
      "Trust Score" = some 85 := by
  refine ⟨?_, ?_, ?_, ?_⟩
  · exact ((scores_comparison_cell_numeric_or_empty
      [[("Overall Score", "N/A"), ("UX Score", ""), ("Trust Score", "85")]]
      [("Overall Score", "N/A"), ("UX Score", ""), ("Trust Score", "85")]
      "Overall Score" (by decide) (by decide)).2.2.1 "N/A" (by decide)).trans
      (by decide)
  · exact ((scores_comparison_cell_numeric_or_empty
      [[("Overall Score", "N/A"), ("UX Score", ""), ("Trust Score", "85")]]
      [("Overall Score", "N/A"), ("UX Score", ""), ("Trust Score", "85")]
      "UX Score" (by decide) (by decide)).2.2.1 "" (by decide)).trans
      (by decide)
  · exact (scores_comparison_cell_numeric_or_empty
      [[("Overall Score", "N/A"), ("UX Score", ""), ("Trust Score", "85")]]
      [("Overall Score", "N/A"), ("UX Score", ""), ("Trust Score", "85")]
      "Consumer Score" (by decide) (by decide)).2.2.2 (by decide)
  · exact ((scores_comparison_cell_numeric_or_empty
      [[("Overall Score", "N/A"), ("UX Score", ""), ("Trust Score", "85")]]
      [("Overall Score", "N/A"), ("UX Score", ""), ("Trust Score", "85")]
      "Trust Score" (by decide) (by decide)).2.2.1 "85" (by decide)).trans
      (by decide)

/-! ### Claim C1 -/

/-- C1: in the styled table, a data cell whose row key contains `Score`
and whose value is a purely-digit string gets the bold score font and a
fill by tier — green for `>= 80`, yellow for `60..79`, red for `< 60`;
a cell whose value is not a purely-digit string gets no fill and no
bold score font, whatever its key. -/
theorem score_cell_tier_formatting (rowNum colIdx : Nat) (k : String) (r : Record) :
    (containsScore k = true →
      strIsDigit ((getField r k).getD "-") = true →
      (dataCell rowNum colIdx k r).font = some scoreFont ∧
      (80 ≤ pyInt ((getField r k).getD "-") →
        (dataCell rowNum colIdx k r).fill = some greenFill) ∧
      (60 ≤ pyInt ((getField r k).getD "-") →
        pyInt ((getField r k).getD "-") < 80 →
        (dataCell rowNum colIdx k r).fill = some yellowFill) ∧
      (pyInt ((getField r k).getD "-") < 60 →
        (dataCell rowNum colIdx k r).fill = some redFill)) ∧
    (strIsDigit ((getField r k).getD "-") = false →
      (dataCell rowNum colIdx k r).fill = none ∧
      (dataCell rowNum colIdx k r).font ≠ some scoreFont) := by
  constructor
  · intro hk hv
    have hvd : ((getField r k).getD "-" != "-") = true :=
      bne_iff_ne.mpr (strIsDigit_ne_dash hv)
    have hcond : (containsScore k && ((getField r k).getD "-" != "-")
        && strIsDigit ((getField r k).getD "-")) = true := by
      simp [hk, hvd, hv]
    have hd : dataCell rowNum colIdx k r =
        { colL := colLetterOf colIdx, row := rowNum
          value := (getField r k).getD "-"
          font := some scoreFont
          fill :=
            if 80 ≤ pyInt ((getField r k).getD "-") then some greenFill
            else if 60 ≤ pyInt ((getField r k).getD "-") then some yellowFill
            else if pyInt ((getField r k).getD "-") < 60 then some redFill
            else none } := by
      unfold dataCell
      dsimp only
      rw [if_pos hcond]
    rw [hd]
    dsimp only
    refine ⟨rfl, ?_, ?_, ?_⟩
    · intro h80
      simp only [if_pos h80]
    · intro h60 h80
      rw [if_neg (by omega), if_pos h60]
    · intro h60
      rw [if_neg (by omega), if_neg (by omega), if_pos h60]
  · intro hv
    have hcond : (containsScore k && ((getField r k).getD "-" != "-")
        && strIsDigit ((getField r k).getD "-")) = false := by
      rw [hv, Bool.and_false]
    unfold dataCell
    dsimp only
    simp only [hcond]
    rw [if_neg (by simp)]
    split
    · refine ⟨rfl, fun h => absurd (Option.some.inj h) (by decide)⟩
    · exact ⟨rfl, fun h => Option.noConfusion h⟩

/-- C1 witness: with key `Overall Score`, the value `85` gets the bold
score font and the green fill, `65` the yellow fill, `20` the red fill,
and the non-digit value `N/A` gets no fill and no score font. -/
theorem score_cell_tier_formatting_witness :
    (dataCell 6 2 "Overall Score" [("Overall Score", "85")]).font = some scoreFont ∧
    (dataCell 6 2 "Overall Score" [("Overall Score", "85")]).fill = some greenFill ∧
    (dataCell 6 3 "Overall Score" [("Overall Score", "65")]).fill = some yellowFill ∧
    (dataCell 6 4 "Overall Score" [("Overall Score", "20")]).fill = some redFill ∧
    (dataCell 6 5 "Overall Score" [("Overall Score", "N/A")]).fill = none ∧
    (dataCell 6 5 "Overall Score" [("Overall Score", "N/A")]).font ≠ some scoreFont := by
  refine ⟨?_, ?_, ?_, ?_, ?_, ?_⟩
  · exact ((score_cell_tier_formatting 6 2 "Overall Score"
      [("Overall Score", "85")]).1 (by decide) (by decide)).1
  · exact ((score_cell_tier_formatting 6 2 "Overall Score"
      [("Overall Score", "85")]).1 (by decide) (by decide)).2.1 (by decide)
  · exact ((score_cell_tier_formatting 6 3 "Overall Score"
      [("Overall Score", "65")]).1 (by decide) (by decide)).2.2.1
      (by decide) (by decide)
  · exact ((score_cell_tier_formatting 6 4 "Overall Score"
      [("Overall Score", "20")]).1 (by decide) (by decide)).2.2.2 (by decide)
  · exact ((score_cell_tier_formatting 6 5 "Overall Score"
      [("Overall Score", "N/A")]).2 (by decide)).1
  · exact ((score_cell_tier_formatting 6 5 "Overall Score"
      [("Overall Score", "N/A")]).2 (by decide)).2

/-! ### Claim C9 -/

lemma mem_keyFold (ks : List String) (acc : List String) (k : String) :
    (k ∈ ks.foldl (fun a k2 => if k2 ∈ a then a else a ++ [k2]) acc) ↔
      k ∈ acc ∨ k ∈ ks := by
  induction ks generalizing acc with
  | nil => simp
  | cons x xs ih =>
    simp only [List.foldl_cons, ih, List.mem_cons]
    by_cases hx : x ∈ acc
    · simp only [if_pos hx]
      constructor
      · tauto
      · rintro (h | rfl | h) <;> tauto
    · simp only [if_neg hx, List.mem_append, List.mem_singleton]
      tauto

lemma mem_dfColumns (rs : List Record) (k : String) :
    k ∈ dfColumns rs ↔ ∃ r ∈ rs, k ∈ r.map Prod.fst := by
  suffices h : ∀ acc, (k ∈ rs.foldl (fun acc r =>
      (r.map Prod.fst).foldl (fun a k2 => if k2 ∈ a then a else a ++ [k2]) acc) acc)
      ↔ k ∈ acc ∨ ∃ r ∈ rs, k ∈ r.map Prod.fst by
    simpa [dfColumns] using h []
  intro acc
  induction rs generalizing acc with
  | nil => simp
  | cons r rs ih =>
    simp only [List.foldl_cons, ih, mem_keyFold, List.mem_cons]
    constructor
    · rintro ((h | h) | ⟨r2, h2, h3⟩)
      · exact Or.inl h
      · exact Or.inr ⟨r, Or.inl rfl, h⟩
      · exact Or.inr ⟨r2, Or.inr h2, h3⟩
    · rintro (h | ⟨r2, (rfl | h2), h3⟩)
      · exact Or.inl (Or.inl h)
      · exact Or.inl (Or.inr h3)
      · exact Or.inr ⟨r2, h2, h3⟩

/-- C9: for a non-empty records list, the `Detailed Data` sheet's
columns never include `_raw`, while every other field key observed on
some record is present. -/
theorem detailed_data_drops_raw_column (rs : List Record) (_h : rs ≠ []) :
    "_raw" ∉ detailedDataColumns rs ∧
    (∀ k, k ≠ "_raw" → (∃ r ∈ rs, k ∈ r.map Prod.fst) →
      k ∈ detailedDataColumns rs) := by
  constructor
  · intro hmem
    rw [detailedDataColumns, List.mem_filter] at hmem
    exact absurd hmem.2 (by decide)
  · intro k hk hex
    rw [detailedDataColumns, List.mem_filter]
    exact ⟨(mem_dfColumns rs k).mpr hex, bne_iff_ne.mpr hk⟩

/-- C9 witness: a record carrying a `_raw` field produces a column list
containing `URL` but not `_raw`. -/
theorem detailed_data_drops_raw_column_witness :
    "_raw" ∉ detailedDataColumns [[("URL", "a"), ("_raw", "x")]] ∧
    "URL" ∈ detailedDataColumns [[("URL", "a"), ("_raw", "x")]] := by
  have h := detailed_data_drops_raw_column [[("URL", "a"), ("_raw", "x")]]
    (by decide)
  exact ⟨h.1, h.2 "URL" (by decide)
    ⟨[("URL", "a"), ("_raw", "x")], by decide, by decide⟩⟩

/-! ### Claim C3 -/

lemma mem_collectScores {f : String} {rs : List Record} {r : Record}
    (hr : r ∈ rs) (hv : strIsDigit ((getField r f).getD "-") = true) :
    pyInt ((getField r f).getD "-") ∈ collectScores f rs := by
  unfold collectScores
  rw [List.mem_filterMap]
  refine ⟨r, hr, ?_⟩
  have hvd : (((getField r f).getD "-") != "-") = true :=
    bne_iff_ne.mpr (strIsDigit_ne_dash hv)
  simp only [hvd, hv, Bool.and_self, if_true]

lemma collectScores_ne_nil_iff (f : String) (rs : List Record) :
    collectScores f rs ≠ [] ↔
      ∃ r ∈ rs, strIsDigit ((getField r f).getD "-") = true := by
  constructor
  · intro h
    by_contra hc
    push_neg at hc
    apply h
    unfold collectScores
    rw [List.filterMap_eq_nil_iff]
    intro r hr
    have hv : strIsDigit ((getField r f).getD "-") = false :=
      Bool.eq_false_iff.mpr (hc r hr)
    simp only [hv, Bool.and_false]
    rfl
  · rintro ⟨r, hr, hv⟩ hnil
    have hmem := mem_collectScores hr hv
    rw [hnil] at hmem
    exact absurd hmem (List.not_mem_nil _)

/-- C3: in the summary block, a score field of the table layout gets an
average line iff some record holds a purely-digit value for it; the
line's pair is exactly `(sum, count)` of the valid digit entries
(non-numeric and missing values excluded, never coerced to zero), so
the reported mean `sum / count` is the arithmetic mean over exactly the
valid entries. -/
theorem summary_average_over_valid_entries (tr : List (String × String))
    (rs : List Record) (f : String) (hf : containsScore f = true)
    (hmem : f ∈ tr.map Prod.fst) :
    ((∃ s n, (f, s, n) ∈ summaryLines tr rs) ↔
      ∃ r ∈ rs, strIsDigit ((getField r f).getD "-") = true) ∧
    (∀ s n, (f, s, n) ∈ summaryLines tr rs →
      s = (collectScores f rs).sum ∧ n = (collectScores f rs).length ∧
      0 < n ∧
      (s : ℚ) / (n : ℚ) =
        ((collectScores f rs).map (fun x : Nat => (x : ℚ))).sum /
          ((collectScores f rs).length : ℚ)) := by
  have hchar : ∀ s n, (f, s, n) ∈ summaryLines tr rs →
      s = (collectScores f rs).sum ∧ n = (collectScores f rs).length ∧
      collectScores f rs ≠ [] := by
    intro s n hline
    unfold summaryLines at hline
    rw [List.mem_filterMap] at hline
    obtain ⟨f2, _hf2, heq⟩ := hline
    by_cases he : (collectScores f2 rs).isEmpty
    · rw [if_pos he] at heq
      exact absurd heq (by simp)
    · rw [if_neg he] at heq
      have h2 := Option.some.inj heq
      rw [Prod.ext_iff] at h2
      obtain ⟨hff, hrest⟩ := h2
      rw [Prod.ext_iff] at hrest
      obtain ⟨hs, hn⟩ := hrest
      dsimp only at hff hs hn
      subst hff
      exact ⟨hs.symm, hn.symm, fun hnil => he (by rw [hnil]; rfl)⟩
  constructor
  · constructor
    · rintro ⟨s, n, hline⟩
      exact (collectScores_ne_nil_iff f rs).mp (hchar s n hline).2.2
    · intro hex
      have hne : collectScores f rs ≠ [] :=
        (collectScores_ne_nil_iff f rs).mpr hex
      refine ⟨(collectScores f rs).sum, (collectScores f rs).length, ?_⟩
      unfold summaryLines
      rw [List.mem_filterMap]
      refine ⟨f, List.mem_filter.mpr ⟨hmem, hf⟩, ?_⟩
      rw [if_neg (by simpa [List.isEmpty_iff] using hne)]
  · intro s n hline
    obtain ⟨hs, hn, hne⟩ := hchar s n hline
    refine ⟨hs, hn, ?_, ?_⟩
    · rw [hn]
      exact List.length_pos.mpr hne
    · rw [hs, hn, Nat.cast_list_sum]

/-- C3 witness: for scores `[80, "-", 60]` of `Overall Score`, exactly
one average line is emitted, with sum 140 over exactly the 2 valid
entries (mean 70.0). -/
theorem summary_average_over_valid_entries_witness :
    ("Overall Score", 140, 2) ∈
      summaryLines [("Overall Score", "Overall Score")]
        [[("Overall Score", "80")], [("Overall Score", "-")],
          [("Overall Score", "60")]] ∧
    140 = (collectScores "Overall Score"
      [[("Overall Score", "80")], [("Overall Score", "-")],
        [("Overall Score", "60")]]).sum ∧
    2 = (collectScores "Overall Score"
      [[("Overall Score", "80")], [("Overall Score", "-")],
        [("Overall Score", "60")]]).length := by
  have h := (summary_average_over_valid_entries
    [("Overall Score", "Overall Score")]
    [[("Overall Score", "80")], [("Overall Score", "-")],
      [("Overall Score", "60")]]
    "Overall Score" (by decide) (by decide)).2 140 2 (by decide)
  exact ⟨by decide, h.1, h.2.1⟩

/-! ### Claim C5 -/

lemma foldr_max_rel (l : List Nat) (g h : Nat → Nat)
    (H : ∀ j ∈ l, h j ≤ g j ∧ g j ≤ max (h j) 4) :
    ((l.map h).foldr max 0 ≤ (l.map g).foldr max 0) ∧
    ((l.map g).foldr max 0 ≤ max ((l.map h).foldr max 0) 4) := by
  induction l with
  | nil => simp
  | cons a as ih =>
    obtain ⟨iha, ihb⟩ := ih (fun j hj => H j (List.mem_cons_of_mem _ hj))
    obtain ⟨ha1, ha2⟩ := H a (List.mem_cons_self _ _)
    simp only [List.map_cons, List.foldr_cons]
    omega

lemma width_clamp_eq (a b : Nat) (h1 : b ≤ a) (h2 : a ≤ max b 4) :
    min (max (a + 2) 10) 50 = min (max (b + 2) 10) 50 := by
  omega

/-- C5: every column width of the styled report is
`clamp(longest written value length + 2, 10, 50)` — the untouched cells
of the used range that the source also measures (as `str(None)`, length
4) never change the clamped result — so every width lies in `[10, 50]`,
a column whose longest value has 3 characters gets width 10, and one
whose longest value has 60 characters gets width 50. -/
theorem column_width_clamped (ts : String) (rs : List Record)
    (tr : List (String × String)) (fmt : Nat → Nat → String) (cl : Char) :
    colWidth (styledSheet ts rs tr fmt) cl =
      min (max (colWrittenMax (styledSheet ts rs tr fmt) cl + 2) 10) 50 ∧
    10 ≤ colWidth (styledSheet ts rs tr fmt) cl ∧
    colWidth (styledSheet ts rs tr fmt) cl ≤ 50 ∧
    (colWrittenMax (styledSheet ts rs tr fmt) cl = 3 →
      colWidth (styledSheet ts rs tr fmt) cl = 10) ∧
    (colWrittenMax (styledSheet ts rs tr fmt) cl = 60 →
      colWidth (styledSheet ts rs tr fmt) cl = 50) := by
  have pointwise : ∀ j ∈ List.range (sheetMaxRow (styledSheet ts rs tr fmt)),
      ((lookupCell (styledSheet ts rs tr fmt) cl (j + 1)).map String.length).getD 0 ≤
        (strOfCell (lookupCell (styledSheet ts rs tr fmt) cl (j + 1))).length ∧
      (strOfCell (lookupCell (styledSheet ts rs tr fmt) cl (j + 1))).length ≤
        max (((lookupCell (styledSheet ts rs tr fmt) cl (j + 1)).map
          String.length).getD 0) 4 := by
    intro j _
    cases hl : lookupCell (styledSheet ts rs tr fmt) cl (j + 1) with
    | none => exact ⟨by simp, by simp [strOfCell]; decide⟩
    | some v => simp [strOfCell]
  have key := foldr_max_rel (List.range (sheetMaxRow (styledSheet ts rs tr fmt)))
    (fun j => (strOfCell (lookupCell (styledSheet ts rs tr fmt) cl (j + 1))).length)
    (fun j => ((lookupCell (styledSheet ts rs tr fmt) cl (j + 1)).map
      String.length).getD 0)
    pointwise
  have heq : colWidth (styledSheet ts rs tr fmt) cl =
      min (max (colWrittenMax (styledSheet ts rs tr fmt) cl + 2) 10) 50 := by
    unfold colWidth colAutoMax colWrittenMax
    exact width_clamp_eq _ _ key.1 key.2
  refine ⟨heq, ?_, ?_, ?_, ?_⟩
  · rw [heq]; omega
  · rw [heq]; omega
  · intro h3; rw [heq, h3]; decide
  · intro h60; rw [heq, h60]; decide

/-- C5 witness: with one site labeled `abc` the `B` column's longest
written value has 3 characters and its width is 10; with a 60-character
label the width is 50. -/
theorem column_width_clamped_witness :
    colWrittenMax (styledSheet "t" [[("URL", "abc")]] [("URL", "URL")]
      (fun _ _ => "")) 'B' = 3 ∧
    colWidth (styledSheet "t" [[("URL", "abc")]] [("URL", "URL")]
      (fun _ _ => "")) 'B' = 10 ∧
    colWrittenMax (styledSheet "t"
      [[("URL", "aaaaaaaaaaaaaaaaaaaaaaaaaaaaaaaaaaaaaaaaaaaaaaaaaaaaaaaaaaaa")]]
      [("URL", "URL")] (fun _ _ => "")) 'B' = 60 ∧
    colWidth (styledSheet "t"
      [[("URL", "aaaaaaaaaaaaaaaaaaaaaaaaaaaaaaaaaaaaaaaaaaaaaaaaaaaaaaaaaaaa")]]
      [("URL", "URL")] (fun _ _ => "")) 'B' = 50 := by
  refine ⟨by decide, ?_, by decide, ?_⟩
  · exact (column_width_clamped "t" [[("URL", "abc")]] [("URL", "URL")]
      (fun _ _ => "") 'B').2.2.2.1 (by decide)
  · exact (column_width_clamped "t"
      [[("URL", "aaaaaaaaaaaaaaaaaaaaaaaaaaaaaaaaaaaaaaaaaaaaaaaaaaaaaaaaaaaa")]]
      [("URL", "URL")] (fun _ _ => "") 'B').2.2.2.2 (by decide)

/-! ### Claim C10 -/

/-- A coordinate `f"{letter}{row}"` the spreadsheet library accepts:
the computed letter must be an uppercase letter `A`-`Z` (codes 65-90)
and the row at least 1. -/
def validCoord (c : CellW) : Prop :=
  65 ≤ c.colL.toNat ∧ c.colL.toNat ≤ 90 ∧ 1 ≤ c.row

lemma mem_mapIdx2 {α β : Type} {f : Nat → α → β} {s : Nat} {l : List α} {b : β}
    (h : b ∈ mapIdx2 f s l) :
    ∃ i x, x ∈ l ∧ s ≤ i ∧ i < s + l.length ∧ b = f i x := by
  induction l generalizing s with
  | nil => cases h
  | cons a as ih =>
    rw [mapIdx2] at h
    rcases List.mem_cons.mp h with h1 | h2
    · exact ⟨s, a, List.mem_cons_self _ _, Nat.le_refl s, by simp, h1⟩
    · obtain ⟨i, x, hx, hsi, hlt, hb⟩ := ih h2
      exact ⟨i, x, List.mem_cons_of_mem _ hx, by omega,
        by simp only [List.length_cons]; omega, hb⟩

lemma mapIdx2_get_mem {α β : Type} (f : Nat → α → β) (s : Nat) (l : List α)
    (i : Nat) (hi : i < l.length) :
    f (s + i) (l.get ⟨i, hi⟩) ∈ mapIdx2 f s l := by
  induction l generalizing s i with
  | nil => exact absurd hi (by simp)
  | cons a as ih =>
    cases i with
    | zero =>
      rw [mapIdx2]
      exact List.mem_cons_self _ _
    | succ n =>
      rw [mapIdx2]
      have h2 := ih (s + 1) n (by simpa using hi)
      refine List.mem_cons_of_mem _ ?_
      have : s + (n + 1) = s + 1 + n := by omega
      rw [this]
      exact h2

lemma colLetterOf_toNat {i : Nat} (h2 : 2 ≤ i) (h26 : i ≤ 26) :
    (colLetterOf i).toNat = 64 + i := by
  interval_cases i <;> decide

lemma dataCell_coord (rowNum colIdx : Nat) (k : String) (r : Record) :
    (dataCell rowNum colIdx k r).colL = colLetterOf colIdx ∧
    (dataCell rowNum colIdx k r).row = rowNum := by
  unfold dataCell
  dsimp only
  split
  · exact ⟨rfl, rfl⟩
  · split <;> exact ⟨rfl, rfl⟩

lemma styledSheet_cell_shape (ts : String) (rs : List Record)
    (tr : List (String × String)) (fmt : Nat → Nat → String) (c : CellW)
    (hc : c ∈ styledSheet ts rs tr fmt) :
    1 ≤ c.row ∧ (c.colL = 'A' ∨ c.colL = 'B' ∨
      ∃ i, 2 ≤ i ∧ i ≤ rs.length + 1 ∧ c.colL = colLetterOf i) := by
  unfold styledSheet at hc
  dsimp only at hc
  split at hc
  · rcases List.mem_append.mp hc with htitle | hp
    · simp only [List.mem_cons, List.not_mem_nil, or_false] at htitle
      rcases htitle with rfl | rfl | rfl
      · exact ⟨Nat.le_of_sub_eq_zero rfl, Or.inl rfl⟩
      · exact ⟨Nat.le_of_sub_eq_zero rfl, Or.inl rfl⟩
      · exact ⟨Nat.le_of_sub_eq_zero rfl, Or.inl rfl⟩
    · simp only [List.mem_cons, List.not_mem_nil, or_false] at hp
      subst hp
      exact ⟨Nat.le_of_sub_eq_zero rfl, Or.inl rfl⟩
  · rcases List.mem_append.mp hc with h1 | hsum
    · rcases List.mem_append.mp h1 with h2 | hdata
      · rcases List.mem_append.mp h2 with htitle | hhdr
        · simp only [List.mem_cons, List.not_mem_nil, or_false] at htitle
          rcases htitle with rfl | rfl | rfl
          · exact ⟨Nat.le_of_sub_eq_zero rfl, Or.inl rfl⟩
          · exact ⟨Nat.le_of_sub_eq_zero rfl, Or.inl rfl⟩
          · exact ⟨Nat.le_of_sub_eq_zero rfl, Or.inl rfl⟩
        · rcases List.mem_cons.mp hhdr with rfl | hmap
          · exact ⟨Nat.le_of_sub_eq_zero rfl, Or.inl rfl⟩
          · obtain ⟨i, r, _hr, hsi, hlt, rfl⟩ := mem_mapIdx2 hmap
            exact ⟨Nat.le_of_sub_eq_zero rfl,
              Or.inr (Or.inr ⟨i, hsi, by omega, rfl⟩)⟩
      · rw [List.mem_flatten] at hdata
        obtain ⟨rowCells, hrow, hcrow⟩ := hdata
        obtain ⟨rowNum, kd, _hkd, hs6, _hlt, rfl⟩ := mem_mapIdx2 hrow
        rw [dataRowCells] at hcrow
        rcases List.mem_cons.mp hcrow with rfl | hdc
        · exact ⟨by show 1 ≤ rowNum; omega, Or.inl rfl⟩
        · obtain ⟨i, r, _hr, hsi, hlt, rfl⟩ := mem_mapIdx2 hdc
          obtain ⟨hcol, hrow2⟩ := dataCell_coord rowNum i kd.1 r
          rw [hcol, hrow2]
          exact ⟨by omega, Or.inr (Or.inr ⟨i, hsi, by omega, rfl⟩)⟩
    · rcases List.mem_cons.mp hsum with rfl | hsc
      · exact ⟨by show 1 ≤ 6 + tr.length + 2; omega, Or.inl rfl⟩
      · rw [summaryCells, List.mem_flatten] at hsc
        obtain ⟨pair, hpair, hcpair⟩ := hsc
        obtain ⟨rowN, e, _he, hs9, _hlt2, rfl⟩ := mem_mapIdx2 hpair
        rcases List.mem_cons.mp hcpair with rfl | h2
        · exact ⟨by show 1 ≤ rowN; omega, Or.inl rfl⟩
        · rcases List.mem_cons.mp h2 with rfl | h3
          · exact ⟨by show 1 ≤ rowN; omega, Or.inr (Or.inl rfl)⟩
          · cases h3

/-- C10: the styled report computes each record column's letter as
`chr(ord('A') + col_idx - 1)`, a single character, so all written cells
carry valid `A`-`Z` coordinates iff at most 25 records are exported
(columns `B`…`Z`); with more than 25 records, some written cell's
computed letter lies past `Z` and is not a valid column letter. -/
theorem column_letters_valid_iff_at_most_25 (ts : String) (rs : List Record)
    (tr : List (String × String)) (fmt : Nat → Nat → String) :
    (rs.length ≤ 25 → ∀ c ∈ styledSheet ts rs tr fmt, validCoord c) ∧
    (25 < rs.length → ∃ c ∈ styledSheet ts rs tr fmt, ¬ validCoord c) := by
  constructor
  · intro h25 c hc
    obtain ⟨hrow, hcol⟩ := styledSheet_cell_shape ts rs tr fmt c hc
    rcases hcol with h | h | ⟨i, h2, h26, h⟩
    · unfold validCoord
      rw [h]
      exact ⟨by decide, by decide, hrow⟩
    · unfold validCoord
      rw [h]
      exact ⟨by decide, by decide, hrow⟩
    · have ht : (colLetterOf i).toNat = 64 + i :=
        colLetterOf_toNat h2 (by omega)
      unfold validCoord
      rw [h, ht]
      exact ⟨by omega, by omega, hrow⟩
  · intro h25
    have h26 : 25 < rs.length := h25
    refine ⟨headerCell 27 (rs.get ⟨25, h26⟩), ?_, ?_⟩
    · have hmem : headerCell 27 (rs.get ⟨25, h26⟩) ∈
          mapIdx2 (fun i r => headerCell i r) 2 rs :=
        mapIdx2_get_mem (fun i r => headerCell i r) 2 rs 25 h26
      unfold styledSheet
      dsimp only
      rw [if_neg (by
        intro he
        rw [List.isEmpty_iff.mp he] at h26
        exact absurd h26 (by decide))]
      refine List.mem_append.mpr (Or.inl ?_)
      refine List.mem_append.mpr (Or.inl ?_)
      refine List.mem_append.mpr (Or.inr ?_)
      exact List.mem_cons_of_mem _ hmem
    · intro hv
      have h91 : (headerCell 27 (rs.get ⟨25, h26⟩)).colL.toNat = 91 := by
        show (colLetterOf 27).toNat = 91
        decide
      obtain ⟨_, hle, _⟩ := hv
      omega

/-- C10 witness: with 26 identical records the sheet contains a cell
whose computed column letter is past `Z` (an invalid coordinate), while
with a single record every written cell's coordinate is valid. -/
theorem column_letters_valid_iff_at_most_25_witness :
    (∀ c ∈ styledSheet "t" [[("URL", "a")]] [("URL", "URL")] (fun _ _ => ""),
      validCoord c) ∧
    (∃ c ∈ styledSheet "t" (List.replicate 26 [("URL", "a")])
      [("URL", "URL")] (fun _ _ => ""), ¬ validCoord c) := by
  constructor
  · exact (column_letters_valid_iff_at_most_25 "t" [[("URL", "a")]]
      [("URL", "URL")] (fun _ _ => "")).1 (by decide)
  · exact (column_letters_valid_iff_at_most_25 "t"
      (List.replicate 26 [("URL", "a")]) [("URL", "URL")]
      (fun _ _ => "")).2 (by decide)

end RateMySite
